import Mathlib

/-!
# Verification of the miknet fragmentation/framing engine (src/src/mikpack.c)

Shallow embedding of `mikpack.c`: the fragment-count helper `fragments`,
the size helpers `fragment_data_size` and `semi_fragment_data_size`, the
memory estimator `mikpack_mem_est`, and the packer `mikpack`.

C `size_t` values are modelled as `Nat` (unbounded; the 64-bit wrap is
unreachable for the quantities involved), while the `uint16_t` fragment
counter and the `uint32_t` offset are modelled with explicit `% 2^16` and
`% 2^32` reductions where the source stores into those types.

The constants `MIKPACK_FRAG_SIZE`, `MIKFRAG_HEADER_SIZE`,
`MIKPACK_REAL_FRAG_SIZE`, `MIKMETA_SERIALIZED_OCTETS` live in headers
(`miknet/mikpack.h`, `miknet/mikmeta.h`) that are not part of the visible
source, so the development is parametric in a per-fragment payload size
`fragSize` and a header size `headerSize`, with the stride relation
modelled from the spec.
-/

namespace Miknet

/-- Modelled from the spec: the error domain is "a small negative-integer
enumeration"; `MIKERR_NONE` is the success code of `mikpack`
(`miknet/mikdef.h` is not in the visible source). -/
def MIKERR_NONE : Int := 0

/-- Modelled from the spec: `MIKERR_BAD_PTR` is the bad-argument error code
returned by `mikpack` on null pointers or zero length
(`miknet/mikdef.h` is not in the visible source). -/
def MIKERR_BAD_PTR : Int := -1

/-- Message type tags, from the spec's wire description:
JOIN=0, QUIT=1, DATA=2, with -1 an error sentinel. -/
inductive Miktype where
  | MIK_ERR
  | MIK_JOIN
  | MIK_QUIT
  | MIK_DATA
deriving DecidableEq

/-- Modelled from the spec: `MIKFRAG_HEADER_SIZE` (from `miknet/mikpack.h`,
not in the visible source) is the fixed size of a serialized fragment
header; the development is parametric in it. -/
def MIKFRAG_HEADER_SIZE (headerSize : Nat) : Nat := headerSize

/-- Modelled from the spec: `MIKMETA_SERIALIZED_OCTETS` (from
`miknet/mikmeta.h`, not in the visible source) is the number of octets a
serialized header occupies; `mikpack` places the fragment payload exactly
this far past the fragment's base offset, so it coincides with the header
size. -/
def MIKMETA_SERIALIZED_OCTETS (headerSize : Nat) : Nat := headerSize

/-- Modelled from the spec: `MIKPACK_REAL_FRAG_SIZE` (from
`miknet/mikpack.h`, not in the visible source) is the header-inclusive
stride between fragments: "a fixed stride (header size + maximum payload
size)". -/
def MIKPACK_REAL_FRAG_SIZE (fragSize headerSize : Nat) : Nat :=
  headerSize + fragSize

/-- The send-side fragment header `mikmeta_t` as used by `mikpack`:
identifier, type tag, part index, and this fragment's payload size. -/
structure Mikmeta where
  id : Nat
  type : Miktype
  part : Nat
  size : Nat
deriving DecidableEq

/-- The packed-message handle `mikpack_t` as used by `mikpack`: a reference
count and a pointer to the destination buffer (pointers are modelled by
their address, `Option Nat`, with `none` for null). -/
structure MikpackT where
  ref_count : Nat
  data : Option Nat
deriving DecidableEq

/-- One fragment as `mikpack` lays it down in the destination buffer: the
header `meta` is serialized at byte offset `offset` (occupying
`MIKMETA_SERIALIZED_OCTETS` bytes) and the payload bytes follow
immediately, starting at `offset + MIKMETA_SERIALIZED_OCTETS`. -/
structure FragWrite where
  offset : Nat
  meta : Mikmeta
  payload : List Nat
deriving DecidableEq

/-- `fragments` from mikpack.c: how many fragments a packet of `len` data
is broken into, rounding up, together with the out-parameter
`remainder = len % MIKPACK_FRAG_SIZE`. The count is held in a `uint16_t`,
hence the `% 2 ^ 16` at the store and at the increment. -/
def fragments (fragSize len : Nat) : Nat × Nat :=
  let frags := (len / fragSize) % 2 ^ 16
  let remainder := len % fragSize
  if remainder ≠ 0 then ((frags + 1) % 2 ^ 16, remainder) else (frags, remainder)

/-- `fragment_data_size` from mikpack.c: octets required to store the given
amount of fragments — `frags * MIKPACK_FRAG_SIZE` (note: no header space). -/
def fragment_data_size (fragSize frags : Nat) : Nat :=
  frags * fragSize

/-- `semi_fragment_data_size` from mikpack.c: octets required to store a
semi fragment with `len` octets — `len + MIKFRAG_HEADER_SIZE`. -/
def semi_fragment_data_size (headerSize len : Nat) : Nat :=
  len + MIKFRAG_HEADER_SIZE headerSize

/-- `mikpack_mem_est` from mikpack.c. -/
def mikpack_mem_est (fragSize headerSize len : Nat) : Nat :=
  let fr := fragments fragSize len
  let mem_est := fragment_data_size fragSize fr.1
  if fr.2 ≠ 0 ∨ len = 0 then
    mem_est + semi_fragment_data_size headerSize fr.2
  else
    mem_est

/-- The sequence of fragment writes the loop of `mikpack` performs for a
source buffer `src` of length `len`: for each part index below the
fragment count, the header (with the call's one `mikid()` value
`mikidVal`, type `MIK_DATA`, the part index, and this fragment's size) at
offset `part * MIKPACK_REAL_FRAG_SIZE` (a `uint32_t`, hence `% 2 ^ 32`),
followed by `size` payload bytes copied from `src + part *
MIKPACK_FRAG_SIZE`. -/
def packWrites (fragSize headerSize mikidVal : Nat) (src : List Nat)
    (len : Nat) : List FragWrite :=
  let fr := fragments fragSize len
  (List.range fr.1).map (fun part =>
    { offset := (part * MIKPACK_REAL_FRAG_SIZE fragSize headerSize) % 2 ^ 32
      meta :=
        { id := mikidVal
          type := Miktype.MIK_DATA
          part := part
          size := if part = fr.1 - 1 ∧ fr.2 ≠ 0 then fr.2 else fragSize }
      payload :=
        (List.range (if part = fr.1 - 1 ∧ fr.2 ≠ 0 then fr.2 else fragSize)).map
          (fun j => src.getD (part * fragSize + j) 0) })

/-- `mikpack` from mikpack.c. Pointer arguments are `Option`s (`none` =
null); `mikid()` is modelled by the parameter `mikidVal`, drawn once per
call (the identifier generator `miknet/mikid.h` is not in the visible
source). Returns the error code, the pack handle after the call (unchanged
when the guard fails), and the list of fragment writes performed on the
destination buffer (empty when the guard fails). -/
def mikpack (fragSize headerSize mikidVal : Nat) (pack : Option MikpackT)
    (src : Option (List Nat)) (len : Nat) (dest : Option Nat) :
    Int × Option MikpackT × List FragWrite :=
  match pack, src, dest with
  | some _, some s, some d =>
    if len = 0 then
      (MIKERR_BAD_PTR, pack, [])
    else
      (MIKERR_NONE, some { ref_count := 0, data := some d },
        packWrites fragSize headerSize mikidVal s len)
  | _, _, _ => (MIKERR_BAD_PTR, pack, [])

/-- Total number of destination-buffer bytes a successful `mikpack` call
writes for a payload of length `len`: each fragment write covers its
header (`MIKMETA_SERIALIZED_OCTETS` bytes) plus its payload bytes; the
writes are disjoint (the stride leaves exactly header + payload room per
fragment), so the total is the sum. -/
def mikpack_bytes_written (fragSize headerSize len : Nat) : Nat :=
  ((packWrites fragSize headerSize 0 (List.replicate len 0) len).map
    (fun w => MIKMETA_SERIALIZED_OCTETS headerSize + w.payload.length)).sum

end Miknet

namespace Miknet

/-- The uint16 fragment count is always below 2 ^ 16. -/
theorem fragments_fst_lt (fragSize len : Nat) :
    (fragments fragSize len).1 < 2 ^ 16 := by
  unfold fragments
  by_cases h : len % fragSize ≠ 0 <;>
    simp [h] <;> exact Nat.mod_lt _ (by norm_num)

/-- C6: `mikpack_mem_est 0` is exactly the fixed fragment-header size: one
header-only semi-fragment, no payload bytes. -/
theorem mikpack_mem_est_len_zero (fragSize headerSize : Nat)
    (hf : 0 < fragSize) :
    mikpack_mem_est fragSize headerSize 0 = MIKFRAG_HEADER_SIZE headerSize := by
  simp [mikpack_mem_est, fragments, fragment_data_size, semi_fragment_data_size]

theorem mikpack_mem_est_len_zero_witness :
    mikpack_mem_est 2 6 0 = MIKFRAG_HEADER_SIZE 6 :=
  mikpack_mem_est_len_zero 2 6 (by decide)

/-- C4: `mikpack` returns the bad-argument error exactly when the pack
handle, the source, or the destination is null, or `len = 0`; and in that
case it mutates nothing: the handle is returned unchanged and no byte of
the destination buffer is written. -/
theorem mikpack_bad_arg_iff (fragSize headerSize mikidVal len : Nat)
    (pack : Option MikpackT) (src : Option (List Nat)) (dest : Option Nat) :
    ((mikpack fragSize headerSize mikidVal pack src len dest).1 = MIKERR_BAD_PTR
      ↔ pack = none ∨ src = none ∨ len = 0 ∨ dest = none) ∧
    ((mikpack fragSize headerSize mikidVal pack src len dest).1 = MIKERR_BAD_PTR →
      (mikpack fragSize headerSize mikidVal pack src len dest).2.1 = pack ∧
      (mikpack fragSize headerSize mikidVal pack src len dest).2.2 = ([] : List FragWrite)) := by
  rcases pack with _ | p <;> rcases src with _ | s <;> rcases dest with _ | d <;>
    by_cases hlen : len = 0 <;>
    simp [mikpack, MIKERR_NONE, MIKERR_BAD_PTR, hlen]

/-- C7: on every successful `mikpack` call the handle's reference count is
set to zero and its data pointer is bound to the caller-supplied
destination buffer. -/
theorem mikpack_handle_init (fragSize headerSize mikidVal len : Nat)
    (p : MikpackT) (s : List Nat) (d : Nat) (hlen : len ≠ 0) :
    (mikpack fragSize headerSize mikidVal (some p) (some s) len (some d)).1 = MIKERR_NONE ∧
    (mikpack fragSize headerSize mikidVal (some p) (some s) len (some d)).2.1 =
      some { ref_count := 0, data := some d } := by
  simp [mikpack, hlen]

theorem mikpack_handle_init_witness :
    (mikpack 2 6 7 (some ⟨5, none⟩) (some [1, 2, 3]) 3 (some 42)).1 = MIKERR_NONE ∧
    (mikpack 2 6 7 (some ⟨5, none⟩) (some [1, 2, 3]) 3 (some 42)).2.1 =
      some { ref_count := 0, data := some 42 } :=
  mikpack_handle_init 2 6 7 3 ⟨5, none⟩ [1, 2, 3] 42 (by decide)

/-- C9: `mikpack` allocates nothing (the handle is bound to the caller's
buffer, see `mikpack_handle_init`) and its result is exactly one of two
codes: `MIKERR_NONE` on success, `MIKERR_BAD_PTR` exactly when an argument
is null or `len` is zero; no other code (in particular no out-of-memory
code) is reachable. -/
theorem mikpack_error_dichotomy (fragSize headerSize mikidVal len : Nat)
    (pack : Option MikpackT) (src : Option (List Nat)) (dest : Option Nat) :
    ((mikpack fragSize headerSize mikidVal pack src len dest).1 = MIKERR_NONE ∨
     (mikpack fragSize headerSize mikidVal pack src len dest).1 = MIKERR_BAD_PTR) ∧
    ((mikpack fragSize headerSize mikidVal pack src len dest).1 = MIKERR_NONE
      ↔ ¬(pack = none ∨ src = none ∨ len = 0 ∨ dest = none)) := by
  rcases pack with _ | p <;> rcases src with _ | s <;> rcases dest with _ | d <;>
    by_cases hlen : len = 0 <;>
    simp [mikpack, MIKERR_NONE, MIKERR_BAD_PTR, hlen]

end Miknet

namespace Miknet

/-- C1: the estimator disagrees with the packer. For a payload of exactly
one full fragment (`len = MIKPACK_FRAG_SIZE`), `mikpack_mem_est` returns
`MIKPACK_FRAG_SIZE` bytes while `mikpack` writes a header plus the payload
— `MIKFRAG_HEADER_SIZE + MIKPACK_FRAG_SIZE` bytes — so the two differ for
every positive header size: the estimator reserves no header space for
full fragments. -/
theorem mem_est_disagrees_with_pack (fragSize headerSize : Nat)
    (hf : 0 < fragSize) (hh : 0 < headerSize) :
    mikpack_mem_est fragSize headerSize fragSize ≠
      mikpack_bytes_written fragSize headerSize fragSize := by
  have hfr : fragments fragSize fragSize = (1, 0) := by
    simp [fragments, Nat.div_self hf, Nat.mod_self]
  have h1 : mikpack_mem_est fragSize headerSize fragSize = fragSize := by
    simp [mikpack_mem_est, hfr, fragment_data_size, hf.ne']
  have h2 : mikpack_bytes_written fragSize headerSize fragSize =
      headerSize + fragSize := by
    simp [mikpack_bytes_written, packWrites, hfr, MIKMETA_SERIALIZED_OCTETS,
      List.range_succ]
  omega

theorem mem_est_disagrees_with_pack_witness :
    mikpack_mem_est 2 6 2 ≠ mikpack_bytes_written 2 6 2 :=
  mem_est_disagrees_with_pack 2 6 (by decide) (by decide)

/-- C2: with a per-fragment payload size of 2, packing 9 bytes yields
5 fragments with payload sizes [2,2,2,2,1] and part indices 0..4 — that
much holds — but `mikpack_mem_est 9 = 11 + headerSize` never equals the
`9 + 5 * headerSize` bytes `mikpack` lays out, whatever the header size
(they would coincide only at the impossible header size 1/2). -/
theorem pack_nine_bytes_frag_two (headerSize : Nat) (src : List Nat) :
    (packWrites 2 headerSize 0 src 9).map (fun w => w.meta.size) = [2, 2, 2, 2, 1] ∧
    (packWrites 2 headerSize 0 src 9).map (fun w => w.meta.part) = [0, 1, 2, 3, 4] ∧
    (packWrites 2 headerSize 0 src 9).length = 5 ∧
    mikpack_mem_est 2 headerSize 9 = 11 + headerSize ∧
    mikpack_bytes_written 2 headerSize 9 = 9 + 5 * headerSize ∧
    mikpack_mem_est 2 headerSize 9 ≠ mikpack_bytes_written 2 headerSize 9 := by
  have hfr : fragments 2 9 = (5, 1) := by decide
  have h1 : mikpack_mem_est 2 headerSize 9 = 11 + headerSize := by
    simp [mikpack_mem_est, hfr, fragment_data_size, semi_fragment_data_size,
      MIKFRAG_HEADER_SIZE]
    omega
  have h2 : mikpack_bytes_written 2 headerSize 9 = 9 + 5 * headerSize := by
    simp [mikpack_bytes_written, packWrites, hfr, MIKMETA_SERIALIZED_OCTETS,
      List.range_succ]
    ring
  refine ⟨?_, ?_, ?_, h1, h2, ?_⟩
  · simp [packWrites, hfr, List.range_succ]
  · simp [packWrites, hfr, List.range_succ]
  · simp [packWrites, hfr]
  · omega

/-- C3 counterexample: for `len = 0` the `fragments` helper returns a
count of 0, not the claimed 1. -/
theorem fragments_len_zero_ne_one :
    (fragments 2 0).1 = 0 ∧ (fragments 2 0).1 ≠ 1 := by decide

/-- C3 (amended): for counts that fit the uint16 counter, the fragment
count is 0 for `len = 0` (though `mikpack_mem_est` still reserves one
header-only semi-fragment there), `k` for `len` a positive exact multiple
`k` of the per-fragment size, and `floor(len / size) + 1` otherwise. -/
theorem fragment_count_characterization (fragSize headerSize len : Nat)
    (hf : 0 < fragSize) (hfit : len / fragSize + 1 < 2 ^ 16) :
    (len = 0 → (fragments fragSize len).1 = 0 ∧
      mikpack_mem_est fragSize headerSize 0 = MIKFRAG_HEADER_SIZE headerSize) ∧
    (∀ k, 0 < k → len = k * fragSize → (fragments fragSize len).1 = k) ∧
    (len % fragSize ≠ 0 → (fragments fragSize len).1 = len / fragSize + 1) := by
  have hdivlt : len / fragSize < 2 ^ 16 := by omega
  refine ⟨?_, ?_, ?_⟩
  · rintro rfl
    exact ⟨by simp [fragments], mikpack_mem_est_len_zero fragSize headerSize hf⟩
  · rintro k hk rfl
    have hrem : k * fragSize % fragSize = 0 := Nat.mul_mod_left k fragSize
    have hdiv : k * fragSize / fragSize = k := Nat.mul_div_cancel k hf
    rw [hdiv] at hdivlt
    simp [fragments, hrem, hdiv]
    omega
  · intro hrem
    simp only [fragments, hrem, ne_eq, not_false_eq_true, if_true]
    rw [Nat.mod_eq_of_lt hdivlt, Nat.mod_eq_of_lt hfit]

theorem fragment_count_characterization_witness :
    (fragments 2 9).1 = 9 / 2 + 1 :=
  (fragment_count_characterization 2 6 9 (by decide) (by decide)).2.2 (by decide)

end Miknet

namespace Miknet

/-- C8: every fragment header a single successful `mikpack` call writes
carries the one `mikid()` value drawn for that call and the type tag
`MIK_DATA`, whatever the payload. -/
theorem mikpack_uniform_id_type (fragSize headerSize mikidVal len : Nat)
    (p : MikpackT) (s : List Nat) (d : Nat) :
    ∀ w ∈ (mikpack fragSize headerSize mikidVal (some p) (some s) len (some d)).2.2,
      w.meta.id = mikidVal ∧ w.meta.type = Miktype.MIK_DATA := by
  intro w hw
  by_cases hlen : len = 0
  · simp [mikpack, hlen] at hw
  · simp only [mikpack, if_neg hlen, packWrites, List.mem_map,
      List.mem_range] at hw
    obtain ⟨part, -, rfl⟩ := hw
    exact ⟨rfl, rfl⟩

theorem mikpack_uniform_id_type_witness :
    ({ offset := 0
       meta := { id := 7, type := Miktype.MIK_DATA, part := 0, size := 2 }
       payload := [1, 2] } : FragWrite).meta.id = 7 ∧
    ({ offset := 0
       meta := { id := 7, type := Miktype.MIK_DATA, part := 0, size := 2 }
       payload := [1, 2] } : FragWrite).meta.type = Miktype.MIK_DATA :=
  mikpack_uniform_id_type 2 6 7 3 ⟨0, none⟩ [1, 2, 3] 5 _ (by decide)

/-- C10: the fragment count lives in a `uint16_t`: for every `len` it is
the mathematical ceiling count reduced `mod 2 ^ 16`, and a payload of
`2 ^ 16 * MIKPACK_FRAG_SIZE` bytes is not rejected — `mikpack` returns
success with the count wrapped to 0, writing no fragment at all. -/
theorem fragments_uint16_wrap (fragSize headerSize mikidVal len : Nat)
    (p : MikpackT) (s : List Nat) (d : Nat) (hf : 0 < fragSize) :
    (fragments fragSize len).1 =
      (len / fragSize + (if len % fragSize ≠ 0 then 1 else 0)) % 2 ^ 16 ∧
    (mikpack fragSize headerSize mikidVal (some p) (some s)
        (2 ^ 16 * fragSize) (some d)).1 = MIKERR_NONE ∧
    (mikpack fragSize headerSize mikidVal (some p) (some s)
        (2 ^ 16 * fragSize) (some d)).2.2 = [] := by
  have hlen : 2 ^ 16 * fragSize ≠ 0 := by positivity
  have hrem : 2 ^ 16 * fragSize % fragSize = 0 := Nat.mul_mod_left _ _
  have hdiv : 2 ^ 16 * fragSize / fragSize = 2 ^ 16 := Nat.mul_div_cancel _ hf
  refine ⟨?_, ?_, ?_⟩
  · by_cases h : len % fragSize ≠ 0 <;>
      simp [fragments, h, Nat.mod_add_mod]
  · simp [mikpack, hlen, hf.ne']
  · simp [mikpack, hlen, hf.ne', packWrites, fragments, hrem, hdiv,
      Nat.mod_self]

theorem fragments_uint16_wrap_witness :
    (fragments 2 9).1 = (9 / 2 + (if 9 % 2 ≠ 0 then 1 else 0)) % 2 ^ 16 ∧
    (mikpack 2 6 7 (some ⟨0, none⟩) (some []) (2 ^ 16 * 2) (some 5)).1 = MIKERR_NONE ∧
    (mikpack 2 6 7 (some ⟨0, none⟩) (some []) (2 ^ 16 * 2) (some 5)).2.2 = [] :=
  fragments_uint16_wrap 2 6 7 9 ⟨0, none⟩ [] 5 (by decide)

end Miknet

namespace Miknet

/-- C5: on every successful `mikpack` call, fragment `i` is written as a
header immediately followed by its payload (the `FragWrite` layout) at the
fixed stride `MIKPACK_REAL_FRAG_SIZE`; every non-final fragment carries
payload size `MIKPACK_FRAG_SIZE`; the final fragment carries
`len % MIKPACK_FRAG_SIZE` when that remainder is non-zero, else the full
per-fragment size; and each payload byte comes from the source at offset
`i * MIKPACK_FRAG_SIZE + j`. -/
theorem mikpack_layout (fragSize headerSize mikidVal len : Nat) (src : List Nat)
    (hsmall : headerSize + fragSize ≤ 2 ^ 16) :
    (packWrites fragSize headerSize mikidVal src len).length =
      (fragments fragSize len).1 ∧
    ∀ i (hi : i < (packWrites fragSize headerSize mikidVal src len).length),
      ((packWrites fragSize headerSize mikidVal src len).get ⟨i, hi⟩).offset =
        i * MIKPACK_REAL_FRAG_SIZE fragSize headerSize ∧
      ((packWrites fragSize headerSize mikidVal src len).get ⟨i, hi⟩).payload.length =
        ((packWrites fragSize headerSize mikidVal src len).get ⟨i, hi⟩).meta.size ∧
      (i + 1 < (fragments fragSize len).1 →
        ((packWrites fragSize headerSize mikidVal src len).get ⟨i, hi⟩).meta.size =
          fragSize) ∧
      (i + 1 = (fragments fragSize len).1 →
        ((packWrites fragSize headerSize mikidVal src len).get ⟨i, hi⟩).meta.size =
          if len % fragSize ≠ 0 then len % fragSize else fragSize) ∧
      ∀ j, j < ((packWrites fragSize headerSize mikidVal src len).get ⟨i, hi⟩).payload.length →
        ((packWrites fragSize headerSize mikidVal src len).get ⟨i, hi⟩).payload.getD j 0 =
          src.getD (i * fragSize + j) 0 := by
  have hlen : (packWrites fragSize headerSize mikidVal src len).length =
      (fragments fragSize len).1 := by
    simp [packWrites]
  have hrem2 : (fragments fragSize len).2 = len % fragSize := by
    unfold fragments
    by_cases h : len % fragSize ≠ 0 <;> simp [h]
  refine ⟨hlen, ?_⟩
  intro i hi
  have hi' : i < (fragments fragSize len).1 := hlen ▸ hi
  have hget : (packWrites fragSize headerSize mikidVal src len).get ⟨i, hi⟩ =
      { offset := (i * MIKPACK_REAL_FRAG_SIZE fragSize headerSize) % 2 ^ 32
        meta :=
          { id := mikidVal
            type := Miktype.MIK_DATA
            part := i
            size := if i = (fragments fragSize len).1 - 1 ∧
                (fragments fragSize len).2 ≠ 0
              then (fragments fragSize len).2 else fragSize }
        payload :=
          (List.range (if i = (fragments fragSize len).1 - 1 ∧
                (fragments fragSize len).2 ≠ 0
              then (fragments fragSize len).2 else fragSize)).map
            (fun j => src.getD (i * fragSize + j) 0) } := by
    simp [packWrites, List.get_eq_getElem]
  have hofflt : i * MIKPACK_REAL_FRAG_SIZE fragSize headerSize < 2 ^ 32 := by
    have h1 : i < 2 ^ 16 := hi'.trans (fragments_fst_lt fragSize len)
    have h2 : MIKPACK_REAL_FRAG_SIZE fragSize headerSize ≤ 2 ^ 16 := by
      simpa [MIKPACK_REAL_FRAG_SIZE] using hsmall
    calc i * MIKPACK_REAL_FRAG_SIZE fragSize headerSize
        ≤ i * 2 ^ 16 := Nat.mul_le_mul_left i h2
      _ < 2 ^ 16 * 2 ^ 16 := by
          exact Nat.mul_lt_mul_of_lt_of_le h1 (le_refl (2 ^ 16)) (by norm_num)
      _ = 2 ^ 32 := by norm_num
  refine ⟨?_, ?_, ?_, ?_, ?_⟩
  · rw [hget]
    exact Nat.mod_eq_of_lt hofflt
  · rw [hget]
    simp
  · intro hnonfinal
    rw [hget]
    have hne : ¬(i = (fragments fragSize len).1 - 1 ∧
        (fragments fragSize len).2 ≠ 0) := by
      rintro ⟨rfl, -⟩
      omega
    simp [hne]
  · intro hfinal
    rw [hget]
    have heq : i = (fragments fragSize len).1 - 1 := by omega
    by_cases hr : len % fragSize ≠ 0
    · simp [heq, hrem2, hr]
    · simp [hrem2, hr]
  · intro j hj
    rw [hget] at hj ⊢
    have hj' : j < (List.range (if i = (fragments fragSize len).1 - 1 ∧
        (fragments fragSize len).2 ≠ 0
        then (fragments fragSize len).2 else fragSize)).length := by
      simpa using hj
    rw [List.getD_eq_getElem _ _ (by simpa using hj')]
    simp

theorem mikpack_layout_witness :
    (packWrites 2 6 0 [9, 8, 7, 6, 5, 4, 3, 2, 1] 9).length = (fragments 2 9).1 :=
  (mikpack_layout 2 6 0 9 [9, 8, 7, 6, 5, 4, 3, 2, 1] (by norm_num)).1

end Miknet
